import Mathlib

/-!
Shallow embedding of `src/app/services/clustering.py` (the AVOCADO
clustering pipeline) and proofs about it.

Modelling conventions:
* A pandas `DataFrame` parsed from CSV is a `Table`: an ordered list of
  named columns.  `pd.read_csv` infers one dtype per column: a column all
  of whose values parse as numbers becomes a numeric column (`ColVals.nums`,
  values as exact rationals); any other column is an object/string column
  (`ColVals.strs`).
* `sklearn.preprocessing.LabelEncoder.fit_transform` maps each value to its
  index in the sorted list of distinct values.
* `sklearn.preprocessing.StandardScaler` standardizes with the population
  standard deviation; a scale of exactly 0 is replaced by 1
  (`_handle_zeros_in_scale`).  The square root is kept abstract as a
  parameter `sq : ℚ → ℚ` applied to the population variance, since only
  the zero/nonzero structure of the scale matters for the claims.
* `sklearn.cluster.KMeans` is an external algorithm; it is modelled as an
  abstract `KMeansModel` whose `predict` is a pure function of the resolved
  random seed, `n_init`, `n_clusters` and the feature matrix (sklearn with a
  fixed `random_state` is deterministic).  Its documented input check
  `n_samples >= n_clusters` is part of the pipeline model.  `KMeansModel.Valid`
  captures the label contract: one label per row, labels in `[0, k-1]`.
* Python dicts are insertion-ordered association lists.
-/

attribute [local semireducible] Rat.mul Rat.inv Rat.add Rat.sub

namespace Avocado

/-- A cell value of a parsed table: a string or an exact rational number. -/
inductive CVal where
  | s (v : String)
  | q (v : ℚ)
deriving DecidableEq, Repr

/-- The values of one column, with the dtype pandas inferred for it. -/
inductive ColVals where
  | nums (vs : List ℚ)
  | strs (vs : List String)
deriving DecidableEq, Repr

/-- Number of rows of a column. -/
def ColVals.len : ColVals → ℕ
  | .nums vs => vs.length
  | .strs vs => vs.length

/-- The cells of a column. -/
def ColVals.cells : ColVals → List CVal
  | .nums vs => vs.map CVal.q
  | .strs vs => vs.map CVal.s

/-- Whether the column has a numeric dtype (`select_dtypes(include=[np.number])`). -/
def ColVals.isNum : ColVals → Bool
  | .nums _ => true
  | .strs _ => false

/-- A parsed DataFrame: ordered, named columns. -/
abbrev Table := List (String × ColVals)

/-- Row count of the table (all columns have this length in a well-formed table). -/
def nRows : Table → ℕ
  | [] => 0
  | c :: _ => c.2.len

/-- Well-formedness of a parsed table: all columns aligned, distinct names. -/
def WF (t : Table) : Prop :=
  (∀ c ∈ t, (Prod.snd c).len = nRows t) ∧ (t.map Prod.fst).Nodup

instance (t : Table) : Decidable (WF t) :=
  decidable_of_iff
    ((∀ c ∈ t, (Prod.snd c).len = nRows t) ∧ (t.map Prod.fst).Nodup) Iff.rfl

/-- Column lookup `df[name]` (first matching column; `.strs []` if absent). -/
def getCol (t : Table) (name : String) : ColVals :=
  match t.find? (fun c => c.1 = name) with
  | some c => c.2
  | none => .strs []

/-- Apply a per-column transformation, keeping names and order
(in-place column assignment on the DataFrame). -/
def mapCols (f : String → ColVals → ColVals) (t : Table) : Table :=
  t.map (fun c => (c.1, f c.1 c.2))

/-! ### `_encode_categorical_columns` -/

/-- The fixed, closed set of recognized categorical column names
(`candidate_columns` in `_encode_categorical_columns`). -/
def candidateColumns : List String :=
  ["gaming_platform_top1", "social_platform_top1", "ott_top1", "content_creation_freq"]

/-- Model of `LabelEncoder().fit_transform`: each value is replaced by its index in
the sorted list of distinct observed values. -/
def labelEncode {α : Type} [LinearOrder α] [DecidableEq α]
    [DecidableRel (fun a b : α => a ≤ b)] (vs : List α) : List ℚ :=
  let classes := vs.dedup.insertionSort (fun a b => a ≤ b)
  vs.map (fun v => ((classes.indexOf v : ℕ) : ℚ))

/-- Label-encode one column (works on string and numeric columns alike;
the result is an integer-coded numeric column). -/
def ColVals.encodeLabels : ColVals → ColVals
  | .nums vs => .nums (labelEncode vs)
  | .strs vs => .nums (labelEncode vs)

/-- Model of `_encode_categorical_columns`: label-encode the recognized categorical
columns that are present; leave every other column unchanged. -/
def encodeCategoricalColumns (t : Table) : Table :=
  mapCols (fun name v => if name ∈ candidateColumns then v.encodeLabels else v) t

/-! ### `_scale_numeric_columns` -/

/-- Mean of a column (0 for an empty column, as a total function on ℚ). -/
def mean (vs : List ℚ) : ℚ := vs.sum / (vs.length : ℚ)

/-- Population variance (divide by n, matching `StandardScaler`). -/
def popVariance (vs : List ℚ) : ℚ :=
  ((vs.map (fun x => (x - mean vs) ^ 2)).sum) / (vs.length : ℚ)

/-- The scale `StandardScaler` divides by: the square root `sq` of the
population variance, with an exact zero replaced by 1
(`_handle_zeros_in_scale`). -/
def scaleFactor (sq : ℚ → ℚ) (vs : List ℚ) : ℚ :=
  if sq (popVariance vs) = 0 then 1 else sq (popVariance vs)

/-- Model of `StandardScaler().fit_transform` on one column: subtract the
mean and divide by the (zero-guarded) scale. -/
def scaleColumn (sq : ℚ → ℚ) (vs : List ℚ) : List ℚ :=
  vs.map (fun x => (x - mean vs) / scaleFactor sq vs)

/-- Names of the numeric-dtype columns, in table order
(`df.select_dtypes(include=[np.number]).columns.tolist()`). -/
def numericCols (t : Table) : List String :=
  (t.filter (fun c => (Prod.snd c).isNum)).map Prod.fst

/-- Model of `_scale_numeric_columns`: standard-scale every numeric column in place. -/
def scaleNumericColumns (sq : ℚ → ℚ) (t : Table) : Table :=
  mapCols (fun _ v => match v with
    | .nums vs => .nums (scaleColumn sq vs)
    | .strs vs => .strs vs) t

/-! ### KMeans model -/

/-- Resolve sklearn's `random_state`: a fixed value pins the seed, `None`
falls back to ambient entropy. -/
def seedOf (randomState : Option ℕ) (entropy : ℕ) : ℕ :=
  randomState.getD entropy

/-- Abstract model of `sklearn.cluster.KMeans(...).fit_predict`: a pure
function of the resolved seed, `n_init`, `n_clusters` and the row-major
feature matrix. -/
structure KMeansModel where
  predict : (seed : ℕ) → (nInit : ℕ) → (k : ℕ) → (X : List (List ℚ)) → List ℕ

/-- The KMeans label contract: one label per row, each in `[0, k-1]`. -/
def KMeansModel.Valid (M : KMeansModel) : Prop :=
  ∀ seed nInit k X, 1 ≤ k →
    (M.predict seed nInit k X).length = X.length ∧
    ∀ l ∈ M.predict seed nInit k X, l < k

/-- The numeric columns' value lists, in table order. -/
def numericMatrixCols (t : Table) : List (List ℚ) :=
  t.filterMap (fun c => match c.2 with
    | .nums vs => some vs
    | .strs _ => none)

/-- Row-major feature matrix `X = df.select_dtypes(include=[np.number])`. -/
def featureMatrix (t : Table) : List (List ℚ) :=
  (List.range (nRows t)).map (fun i => (numericMatrixCols t).map (fun vs => vs.getD i 0))

/-! ### Result assembly and the pipeline -/

/-- The error taxonomy of the spec, carried by the `ValueError`s the code
raises (schema violations) and the error sklearn raises from `fit_predict`
(clustering preconditions). -/
inductive PipelineError where
  | schemaError (msg : String)
  | clusteringError (msg : String)
deriving DecidableEq, Repr

/-- The success dictionary returned by `run_clustering_pipeline`
(field names mirror the dict keys at lines 77-81). -/
structure ClusterResult where
  number_of_clusters : ℤ
  clusters : List (String × List CVal)
  raw_clusters : List (List (String × CVal))
deriving DecidableEq, Repr

/-- The dict key `f"Cluster {cluster_id}"`. -/
def clusterKey (c : ℕ) : String := "Cluster " ++ toString c

/-- Model of `df[df["Cluster"] == c]["name"].tolist()`: the identifiers of the rows
assigned to cluster `c`, in row order. -/
def rowsWithLabel (ids : List CVal) (labels : List ℕ) (c : ℕ) : List CVal :=
  ((ids.zip labels).filter (fun p => p.2 = c)).map Prod.fst

/-- Sorted distinct labels `sorted(df["Cluster"].unique())`. -/
def sortedUnique (labels : List ℕ) : List ℕ :=
  labels.dedup.insertionSort (fun a b => a ≤ b)

/-- Lines 72-75: the clusters summary dict, one entry per label value that
actually occurs, in ascending label order. -/
def clustersSummary (ids : List CVal) (labels : List ℕ) : List (String × List CVal) :=
  (sortedUnique labels).map (fun c => (clusterKey c, rowsWithLabel ids labels c))

/-- One row of `df.to_dict(orient="records")` before the `Cluster` key:
column name → that row's (transformed) cell. -/
def rowRecord (t : Table) (i : ℕ) : List (String × CVal) :=
  t.map (fun c => (c.1, (Prod.snd c).cells.getD i (.q 0)))

/-- Model of `df.to_dict(orient="records")` for the transformed frame carrying the
added `Cluster` column (added last, hence the last key of each record). -/
def rawRecords (t : Table) (labels : List ℕ) : List (List (String × CVal)) :=
  (List.range (nRows t)).map
    (fun i => rowRecord t i ++ [("Cluster", CVal.q ((labels.getD i 0 : ℕ) : ℚ))])

/-- Model of `run_clustering_pipeline` over an already-parsed table.  `sq` is the
abstract square root used by the scaler, `M` the abstract KMeans behaviour,
`entropy` the ambient randomness that sklearn would consult if
`random_state` were `None` (the code pins `random_state=42`). -/
def run_clustering_pipeline (sq : ℚ → ℚ) (M : KMeansModel) (entropy : ℕ)
    (t : Table) (k_opt : ℕ) : Except PipelineError ClusterResult :=
  if "name" ∈ t.map Prod.fst then
    let t₁ := encodeCategoricalColumns t
    let ncols := numericCols t₁
    let t₂ := scaleNumericColumns sq t₁
    if ncols = [] then
      .error (.schemaError "Dataset must contain at least one numeric column for clustering.")
    else
      let X := featureMatrix t₂
      if X.length < k_opt then
        .error (.clusteringError
          ("n_samples=" ++ toString X.length ++ " should be >= n_clusters=" ++ toString k_opt ++ "."))
      else
        let labels := M.predict (seedOf (some 42) entropy) 10 k_opt X
        .ok { number_of_clusters := (k_opt : ℤ)
            , clusters := clustersSummary ((getCol t₂ "name").cells) labels
            , raw_clusters := rawRecords t₂ labels }
  else
    .error (.schemaError "Dataset must contain a 'name' column for person identification.")

/-! ### JSON serialization (`serialize_clusters_to_json`) -/

/-- JSON values as produced by the pipeline's payloads.  Rationals stand in
for Python floats; string escaping is restricted to the backslash and the
quote (the identifiers and keys at play contain no control characters). -/
inductive JVal where
  | jint (n : ℤ)
  | jrat (q : ℚ)
  | jstr (s : String)
  | jarr (xs : List JVal)
  | jobj (xs : List (String × JVal))

/-- Escape a JSON string body. -/
def jsonEscape (s : String) : String :=
  String.join (s.data.map (fun ch =>
    if ch = '\\' then "\\\\" else if ch = '"' then "\\\"" else String.mk [ch]))

/-- Indentation of `width * level` spaces. -/
def indentStr (width level : ℕ) : String :=
  String.mk (List.replicate (width * level) ' ')

mutual
/-- Model of `json.dumps(v, indent=width)` at nesting depth `level`: Python's
pretty printer with item separator `","` and key separator `": "`;
empty containers print on one line. -/
def JVal.dump (width level : ℕ) : JVal → String
  | .jint n => toString n
  | .jrat q => toString q
  | .jstr s => "\"" ++ jsonEscape s ++ "\""
  | .jarr [] => "[]"
  | .jarr (x :: xs) =>
      "[\n" ++ JVal.dumpArr width (level + 1) x xs ++ "\n" ++ indentStr width level ++ "]"
  | .jobj [] => "{}"
  | .jobj (x :: xs) =>
      "\x7b\n" ++ JVal.dumpObj width (level + 1) x xs ++ "\n" ++ indentStr width level ++ "\x7d"
termination_by v => sizeOf v

/-- Comma-and-newline separated array items, each indented. -/
def JVal.dumpArr (width level : ℕ) : JVal → List JVal → String
  | x, [] => indentStr width level ++ JVal.dump width level x
  | x, y :: ys =>
      indentStr width level ++ JVal.dump width level x ++ ",\n" ++ JVal.dumpArr width level y ys
termination_by x xs => sizeOf x + sizeOf xs

/-- Comma-and-newline separated object entries, each indented. -/
def JVal.dumpObj (width level : ℕ) : (String × JVal) → List (String × JVal) → String
  | (ky, v), [] =>
      indentStr width level ++ "\"" ++ jsonEscape ky ++ "\": " ++ JVal.dump width level v
  | (ky, v), y :: ys =>
      indentStr width level ++ "\"" ++ jsonEscape ky ++ "\": " ++ JVal.dump width level v
        ++ ",\n" ++ JVal.dumpObj width level y ys
termination_by x xs => sizeOf x + sizeOf xs
end

/-- A cell as a JSON value. -/
def CVal.toJ : CVal → JVal
  | .s v => .jstr v
  | .q v => .jrat v

/-- The `clusters` mapping as a JSON object. -/
def clustersToJ (cs : List (String × List CVal)) : JVal :=
  .jobj (cs.map (fun p => (p.1, .jarr (p.2.map CVal.toJ))))

/-- The download payload built at lines 86-89: exactly the two keys
`number_of_clusters` and `clusters`. -/
def downloadPayload (r : ClusterResult) : JVal :=
  .jobj [("number_of_clusters", .jint r.number_of_clusters),
         ("clusters", clustersToJ r.clusters)]

/-- Model of `serialize_clusters_to_json`: `json.dumps(payload, indent=2)`. -/
def serialize_clusters_to_json (r : ClusterResult) : String :=
  (downloadPayload r).dump 2 0

/-- The full success dictionary of `run_clustering_pipeline` (lines 77-81)
as a JSON-like Python value, key order as constructed. -/
def resultToPy (r : ClusterResult) : List (String × JVal) :=
  [("number_of_clusters", .jint r.number_of_clusters),
   ("clusters", clustersToJ r.clusters),
   ("raw_clusters", .jarr (r.raw_clusters.map (fun rec =>
      .jobj (rec.map (fun p => (p.1, p.2.toJ))))))]

/-- The numeric-column set the spec's words describe for the zero-numeric
check: numeric columns after encoding the recognized categorical columns,
with the identifier column removed.  (The code itself never removes
"name"; this definition exists to compare the spec's wording with the
code.) -/
def specNumericColsExclId (t : Table) : List String :=
  (numericCols (encodeCategoricalColumns t)).erase "name"

/-! ### Basic lemmas -/

instance {ε α : Type} [DecidableEq ε] [DecidableEq α] : DecidableEq (Except ε α) :=
  fun x y =>
    match x, y with
    | .ok a, .ok b =>
        if h : a = b then .isTrue (by rw [h]) else .isFalse (by simp [h])
    | .error a, .error b =>
        if h : a = b then .isTrue (by rw [h]) else .isFalse (by simp [h])
    | .ok _, .error _ => .isFalse (by simp)
    | .error _, .ok _ => .isFalse (by simp)

theorem labelEncode_length {α : Type} [LinearOrder α] [DecidableEq α]
    [DecidableRel (fun a b : α => a ≤ b)] (vs : List α) :
    (labelEncode vs).length = vs.length := by
  simp [labelEncode]

theorem ColVals.len_encodeLabels (v : ColVals) : v.encodeLabels.len = v.len := by
  cases v <;> simp [ColVals.encodeLabels, ColVals.len, labelEncode_length]

theorem scaleColumn_length (sq : ℚ → ℚ) (vs : List ℚ) :
    (scaleColumn sq vs).length = vs.length := by
  simp [scaleColumn]

theorem ColVals.cells_length (v : ColVals) : v.cells.length = v.len := by
  cases v <;> simp [ColVals.cells, ColVals.len]

theorem mapCols_map_fst (f : String → ColVals → ColVals) (t : Table) :
    (mapCols f t).map Prod.fst = t.map Prod.fst := by
  simp [mapCols, List.map_map, Function.comp]

theorem nRows_mapCols {f : String → ColVals → ColVals}
    (hf : ∀ n v, (f n v).len = v.len) (t : Table) :
    nRows (mapCols f t) = nRows t := by
  cases t with
  | nil => rfl
  | cons c t => simp [mapCols, nRows, hf]

theorem find?_mapCols (f : String → ColVals → ColVals) (t : Table) (name : String) :
    (mapCols f t).find? (fun c => c.1 = name) =
      (t.find? (fun c => c.1 = name)).map (fun c => (c.1, f c.1 c.2)) := by
  rw [mapCols, List.find?_map]
  rfl

theorem getCol_mapCols (f : String → ColVals → ColVals) (t : Table) (name : String) :
    getCol (mapCols f t) name =
      (match t.find? (fun c => c.1 = name) with
       | some c => f c.1 c.2
       | none => ColVals.strs []) := by
  rw [getCol, find?_mapCols]
  cases t.find? (fun c => c.1 = name) <;> rfl

theorem encodeLenPres : ∀ (n : String) (v : ColVals),
    ((if n ∈ candidateColumns then v.encodeLabels else v)).len = v.len := by
  intro n v
  split
  · exact ColVals.len_encodeLabels v
  · rfl

theorem scaleLenPres (sq : ℚ → ℚ) : ∀ (n : String) (v : ColVals),
    ((fun (_ : String) v => match v with
      | ColVals.nums vs => ColVals.nums (scaleColumn sq vs)
      | ColVals.strs vs => ColVals.strs vs) n v).len = v.len := by
  intro n v
  cases v <;> simp [ColVals.len, scaleColumn_length]

theorem nRows_encode (t : Table) : nRows (encodeCategoricalColumns t) = nRows t :=
  nRows_mapCols encodeLenPres t

theorem nRows_scale (sq : ℚ → ℚ) (t : Table) :
    nRows (scaleNumericColumns sq t) = nRows t :=
  nRows_mapCols (scaleLenPres sq) t

theorem WF_mapCols {f : String → ColVals → ColVals}
    (hf : ∀ n v, (f n v).len = v.len) {t : Table} (h : WF t) : WF (mapCols f t) := by
  constructor
  · intro c hc
    rw [mapCols, List.mem_map] at hc
    obtain ⟨c₀, hc₀, rfl⟩ := hc
    rw [nRows_mapCols hf]
    simpa [hf] using h.1 c₀ hc₀
  · rw [mapCols_map_fst]
    exact h.2

theorem WF_encode {t : Table} (h : WF t) : WF (encodeCategoricalColumns t) :=
  WF_mapCols encodeLenPres h

theorem WF_scale (sq : ℚ → ℚ) {t : Table} (h : WF t) : WF (scaleNumericColumns sq t) :=
  WF_mapCols (scaleLenPres sq) h

theorem featureMatrix_length (t : Table) : (featureMatrix t).length = nRows t := by
  simp [featureMatrix]

theorem find?_name_of_mem {t : Table} {name : String} (h : name ∈ t.map Prod.fst) :
    ∃ v, t.find? (fun c => c.1 = name) = some (name, v) ∧ (name, v) ∈ t := by
  rw [List.mem_map] at h
  obtain ⟨c, hc, hfst⟩ := h
  have hsome : (t.find? (fun c => c.1 = name)).isSome := by
    rw [List.find?_isSome]
    exact ⟨c, hc, by simp [hfst]⟩
  obtain ⟨c', hc'⟩ := Option.isSome_iff_exists.mp hsome
  have h1 : c'.1 = name := by simpa using List.find?_some hc'
  have h2 : c' ∈ t := List.mem_of_find?_eq_some hc'
  exact ⟨c'.2, by rw [hc']; rw [← h1], by rw [← h1]; exact h2⟩

theorem getCol_len {t : Table} {name : String} (hwf : WF t)
    (h : name ∈ t.map Prod.fst) : (getCol t name).len = nRows t := by
  obtain ⟨v, hfind, hmem⟩ := find?_name_of_mem h
  rw [getCol, hfind]
  exact hwf.1 _ hmem

/-! ### Characterizations of the pipeline's branches -/

theorem run_missing_name (sq : ℚ → ℚ) (M : KMeansModel) (e : ℕ) (t : Table) (k : ℕ)
    (h : "name" ∉ t.map Prod.fst) :
    run_clustering_pipeline sq M e t k =
      .error (.schemaError "Dataset must contain a 'name' column for person identification.") := by
  rw [run_clustering_pipeline, if_neg h]

theorem run_no_numeric (sq : ℚ → ℚ) (M : KMeansModel) (e : ℕ) (t : Table) (k : ℕ)
    (h1 : "name" ∈ t.map Prod.fst)
    (h2 : numericCols (encodeCategoricalColumns t) = []) :
    run_clustering_pipeline sq M e t k =
      .error (.schemaError "Dataset must contain at least one numeric column for clustering.") := by
  rw [run_clustering_pipeline, if_pos h1]
  simp [h2]

theorem run_k_too_big (sq : ℚ → ℚ) (M : KMeansModel) (e : ℕ) (t : Table) (k : ℕ)
    (h1 : "name" ∈ t.map Prod.fst)
    (h2 : numericCols (encodeCategoricalColumns t) ≠ [])
    (h3 : nRows t < k) :
    run_clustering_pipeline sq M e t k =
      .error (.clusteringError
        ("n_samples=" ++ toString (nRows t) ++ " should be >= n_clusters=" ++ toString k ++ ".")) := by
  have hX : (featureMatrix (scaleNumericColumns sq (encodeCategoricalColumns t))).length
      = nRows t := by
    rw [featureMatrix_length, nRows_scale, nRows_encode]
  rw [run_clustering_pipeline, if_pos h1]
  simp only [if_neg h2, hX, if_pos h3]

theorem run_eq_ok (sq : ℚ → ℚ) (M : KMeansModel) (e : ℕ) (t : Table) (k : ℕ)
    (h1 : "name" ∈ t.map Prod.fst)
    (h2 : numericCols (encodeCategoricalColumns t) ≠ [])
    (h3 : ¬ nRows t < k) :
    run_clustering_pipeline sq M e t k =
      .ok { number_of_clusters := (k : ℤ)
          , clusters := clustersSummary
              ((getCol (scaleNumericColumns sq (encodeCategoricalColumns t)) "name").cells)
              (M.predict 42 10 k (featureMatrix (scaleNumericColumns sq (encodeCategoricalColumns t))))
          , raw_clusters := rawRecords (scaleNumericColumns sq (encodeCategoricalColumns t))
              (M.predict 42 10 k (featureMatrix (scaleNumericColumns sq (encodeCategoricalColumns t)))) } := by
  have hX : (featureMatrix (scaleNumericColumns sq (encodeCategoricalColumns t))).length
      = nRows t := by
    rw [featureMatrix_length, nRows_scale, nRows_encode]
  rw [run_clustering_pipeline, if_pos h1]
  simp only [if_neg h2, hX, if_neg h3, seedOf, Option.getD]

theorem run_ok_guards {sq : ℚ → ℚ} {M : KMeansModel} {e : ℕ} {t : Table} {k : ℕ}
    {r : ClusterResult}
    (h : run_clustering_pipeline sq M e t k = .ok r) :
    "name" ∈ t.map Prod.fst ∧
    numericCols (encodeCategoricalColumns t) ≠ [] ∧ ¬ nRows t < k := by
  by_cases h1 : "name" ∈ t.map Prod.fst
  · by_cases h2 : numericCols (encodeCategoricalColumns t) = []
    · rw [run_no_numeric sq M e t k h1 h2] at h
      exact absurd h (by simp)
    · by_cases h3 : nRows t < k
      · rw [run_k_too_big sq M e t k h1 h2 h3] at h
        exact absurd h (by simp)
      · exact ⟨h1, h2, h3⟩
  · rw [run_missing_name sq M e t k h1] at h
    exact absurd h (by simp)

/-! ### The summary is a partition of the rows -/

theorem rowsWithLabel_length : ∀ (ids : List CVal) (labels : List ℕ) (c : ℕ),
    ids.length = labels.length →
    (rowsWithLabel ids labels c).length = labels.count c
  | [], [], c, _ => by simp [rowsWithLabel]
  | [], _ :: _, _, h => by simp at h
  | _ :: _, [], _, h => by simp at h
  | a :: as, b :: bs, c, h => by
      have ih := rowsWithLabel_length as bs c (by simpa using h)
      simp only [rowsWithLabel] at ih
      by_cases hb : b = c <;>
        (simp only [rowsWithLabel, List.zip_cons_cons, List.filter_cons, List.count_cons] at ih ⊢
         simp [hb] at ih ⊢
         omega)

theorem rowsWithLabel_sublist (ids : List CVal) (labels : List ℕ) (c : ℕ)
    (h : ids.length = labels.length) :
    (rowsWithLabel ids labels c).Sublist ids := by
  have h1 : ((ids.zip labels).filter (fun p => p.2 = c)).Sublist (ids.zip labels) :=
    List.filter_sublist _
  have h2 := h1.map Prod.fst
  rwa [List.map_fst_zip ids labels (le_of_eq h)] at h2

theorem sortedUnique_nodup (labels : List ℕ) : (sortedUnique labels).Nodup :=
  (List.perm_insertionSort _ _).nodup_iff.mpr (List.nodup_dedup labels)

theorem mem_sortedUnique {labels : List ℕ} {c : ℕ} :
    c ∈ sortedUnique labels ↔ c ∈ labels :=
  (List.perm_insertionSort _ _).mem_iff.trans List.mem_dedup

theorem sum_counts (labels : List ℕ) :
    ((sortedUnique labels).map (fun c => labels.count c)).sum = labels.length := by
  have hperm := (List.perm_insertionSort (fun a b : ℕ => a ≤ b) labels.dedup).map
    (fun c => labels.count c)
  rw [sortedUnique, hperm.sum_eq]
  exact List.sum_map_count_dedup_eq_length labels

theorem flatten_filter_perm {α : Type} [DecidableEq α] :
    ∀ (us : List ℕ) (ps : List (α × ℕ)), us.Nodup → (∀ p ∈ ps, p.2 ∈ us) →
    ((us.map (fun c => ((ps.filter (fun p => p.2 = c)).map Prod.fst))).flatten).Perm
      (ps.map Prod.fst)
  | [], ps, _, hcov => by
      have hps : ps = [] :=
        List.eq_nil_iff_forall_not_mem.mpr (fun p hp => by simpa using hcov p hp)
      subst hps
      simp
  | c :: us, ps, hnd, hcov => by
      have hcnotin : c ∉ us := (List.nodup_cons.mp hnd).1
      have hndus : us.Nodup := (List.nodup_cons.mp hnd).2
      have hcov' : ∀ p ∈ ps.filter (fun p => !(decide (p.2 = c))), p.2 ∈ us := by
        intro p hp
        have hmem : p ∈ ps := List.mem_of_mem_filter hp
        have hne : ¬ p.2 = c := by simpa using List.of_mem_filter hp
        have hin := hcov p hmem
        rw [List.mem_cons] at hin
        tauto
      have hmapeq : us.map (fun c' => ((ps.filter (fun p => p.2 = c')).map Prod.fst))
          = us.map (fun c' =>
              (((ps.filter (fun p => !(decide (p.2 = c)))).filter
                (fun p => p.2 = c')).map Prod.fst)) := by
        apply List.map_congr_left
        intro c' hc'
        have hne : c' ≠ c := fun hcc => hcnotin (hcc ▸ hc')
        rw [List.filter_filter]
        congr 1
        apply List.filter_congr
        intro p _
        by_cases h : p.2 = c'
        · simp [h, hne]
        · simp [h]
      have ih := flatten_filter_perm us (ps.filter (fun p => !(decide (p.2 = c)))) hndus hcov'
      simp only [List.map_cons, List.flatten_cons]
      rw [hmapeq]
      refine (List.Perm.append_left _ ih).trans ?_
      rw [← List.map_append]
      exact (List.filter_append_perm (fun p => p.2 = c) ps).map Prod.fst

theorem map_fst_encode (t : Table) :
    (encodeCategoricalColumns t).map Prod.fst = t.map Prod.fst :=
  mapCols_map_fst _ _

theorem map_fst_scale (sq : ℚ → ℚ) (t : Table) :
    (scaleNumericColumns sq t).map Prod.fst = t.map Prod.fst :=
  mapCols_map_fst _ _

/-! ### Concrete instances used by witnesses and counterexamples

`sq0` is a (degenerate but admissible) square-root stand-in, `M0` a
constant-label clustering behaviour (what k-means yields on fully tied
data), `M2` a round-robin labelling; both satisfy the KMeans label
contract. -/

def sq0 : ℚ → ℚ := fun _ => 0

def M0 : KMeansModel := ⟨fun _ _ _ X => X.map (fun _ => 0)⟩

theorem M0_valid : M0.Valid := by
  intro seed nInit k X hk
  constructor
  · simp [M0]
  · intro l hl
    have hl' : l ∈ X.map (fun _ => 0) := hl
    rw [List.mem_map] at hl'
    obtain ⟨x, _, hx⟩ := hl'
    omega

def M2 : KMeansModel := ⟨fun _ _ k X => (List.range X.length).map (fun i => i % k)⟩

theorem M2_valid : M2.Valid := by
  intro seed nInit k X hk
  constructor
  · simp [M2]
  · intro l hl
    have hl' : l ∈ (List.range X.length).map (fun i => i % k) := hl
    rw [List.mem_map] at hl'
    obtain ⟨i, _, hx⟩ := hl'
    subst hx
    exact Nat.mod_lt i hk

def T1 : Table := [("name", .strs ["a", "b", "c"]), ("age", .nums [1, 2, 3])]

def RES1 : ClusterResult :=
  { number_of_clusters := 3
  , clusters := [("Cluster 0", [.s "a", .s "b", .s "c"])]
  , raw_clusters :=
      [[("name", .s "a"), ("age", .q (-1)), ("Cluster", .q 0)],
       [("name", .s "b"), ("age", .q 0), ("Cluster", .q 0)],
       [("name", .s "c"), ("age", .q 1), ("Cluster", .q 0)]] }

def T2 : Table := [("name", .strs ["a", "b"]), ("age", .nums [1, 1])]

def RES2 : ClusterResult :=
  { number_of_clusters := 2
  , clusters := [("Cluster 0", [.s "a", .s "b"])]
  , raw_clusters :=
      [[("name", .s "a"), ("age", .q 0), ("Cluster", .q 0)],
       [("name", .s "b"), ("age", .q 0), ("Cluster", .q 0)]] }

def T3 : Table := [("name", .strs ["p", "q", "r", "t"]), ("age", .nums [1, 2, 3, 4])]

def RES3 : ClusterResult :=
  { number_of_clusters := 2
  , clusters := [("Cluster 0", [.s "p", .s "r"]), ("Cluster 1", [.s "q", .s "t"])]
  , raw_clusters :=
      [[("name", .s "p"), ("age", .q (-3/2)), ("Cluster", .q 0)],
       [("name", .s "q"), ("age", .q (-1/2)), ("Cluster", .q 1)],
       [("name", .s "r"), ("age", .q (1/2)), ("Cluster", .q 0)],
       [("name", .s "t"), ("age", .q (3/2)), ("Cluster", .q 1)]] }

def T5 : Table := [("name", ColVals.nums [1, 2, 3])]

def RES5 : ClusterResult :=
  { number_of_clusters := 3
  , clusters := [("Cluster 0", [.q (-1), .q 0, .q 1])]
  , raw_clusters :=
      [[("name", .q (-1)), ("Cluster", .q 0)],
       [("name", .q 0), ("Cluster", .q 0)],
       [("name", .q 1), ("Cluster", .q 0)]] }

/-! ### The claims -/

/-- C1: for every valid input table, the clusters mapping of
`run_clustering_pipeline` partitions the rows: the cluster-list lengths sum
to the row count, the concatenation of the cluster lists is a permutation
of the identifier column (each row's identifier slot lands in exactly one
cluster list), and each cluster list is a sublist of the identifier column
(original row order preserved). -/
theorem clustering_C1 (sq : ℚ → ℚ) (M : KMeansModel) (e : ℕ) (t : Table) (k : ℕ)
    (r : ClusterResult) (hM : M.Valid) (hwf : WF t) (hk : 1 ≤ k)
    (hrun : run_clustering_pipeline sq M e t k = .ok r) :
    ((r.clusters.map (fun p => (Prod.snd p).length)).sum = nRows t) ∧
    ((r.clusters.map Prod.snd).flatten).Perm
      ((getCol (scaleNumericColumns sq (encodeCategoricalColumns t)) "name").cells) ∧
    ∀ p ∈ r.clusters, (Prod.snd p).Sublist
      ((getCol (scaleNumericColumns sq (encodeCategoricalColumns t)) "name").cells) := by
  obtain ⟨h1, h2, h3⟩ := run_ok_guards hrun
  rw [run_eq_ok sq M e t k h1 h2 h3] at hrun
  injection hrun with hr
  subst hr
  set t₂ := scaleNumericColumns sq (encodeCategoricalColumns t) with ht₂
  set ids := (getCol t₂ "name").cells with hids
  set labels := M.predict 42 10 k (featureMatrix t₂) with hlabels
  have hname₂ : "name" ∈ t₂.map Prod.fst := by
    rw [ht₂, map_fst_scale, map_fst_encode]
    exact h1
  have hwf₂ : WF t₂ := WF_scale sq (WF_encode hwf)
  have hidlen : ids.length = nRows t := by
    rw [hids, ColVals.cells_length, getCol_len hwf₂ hname₂, ht₂, nRows_scale, nRows_encode]
  have hlablen : labels.length = nRows t := by
    rw [hlabels, (hM 42 10 k (featureMatrix t₂) hk).1, featureMatrix_length, ht₂,
      nRows_scale, nRows_encode]
  have hlen : ids.length = labels.length := hidlen.trans hlablen.symm
  have hcov : ∀ p ∈ ids.zip labels, p.2 ∈ sortedUnique labels := by
    intro p hp
    obtain ⟨a, b⟩ := p
    rw [mem_sortedUnique]
    exact (List.of_mem_zip hp).2
  refine ⟨?_, ?_, ?_⟩
  · show ((clustersSummary ids labels).map (fun p => (Prod.snd p).length)).sum = nRows t
    rw [clustersSummary, List.map_map]
    have hcomp : ((fun p => (Prod.snd p).length) ∘
        (fun c => (clusterKey c, rowsWithLabel ids labels c)))
        = fun c => (rowsWithLabel ids labels c).length := rfl
    rw [hcomp, List.map_congr_left (fun c _ => rowsWithLabel_length ids labels c hlen),
      sum_counts, hlablen]
  · show ((clustersSummary ids labels).map Prod.snd).flatten.Perm ids
    rw [clustersSummary, List.map_map]
    have hcomp : (Prod.snd ∘ (fun c => (clusterKey c, rowsWithLabel ids labels c)))
        = fun c => rowsWithLabel ids labels c := rfl
    rw [hcomp]
    have hperm := flatten_filter_perm (sortedUnique labels) (ids.zip labels)
      (sortedUnique_nodup labels) hcov
    rw [List.map_fst_zip ids labels (le_of_eq hlen)] at hperm
    simpa only [rowsWithLabel] using hperm
  · intro p hp
    have hp' : p ∈ clustersSummary ids labels := hp
    rw [clustersSummary, List.mem_map] at hp'
    obtain ⟨c, _, rfl⟩ := hp'
    exact rowsWithLabel_sublist ids labels c hlen

/-- Witness for C1 at a concrete table of three rows. -/
theorem clustering_C1_witness :
    ((RES1.clusters.map (fun p => (Prod.snd p).length)).sum = nRows T1) ∧
    ((RES1.clusters.map Prod.snd).flatten).Perm
      ((getCol (scaleNumericColumns sq0 (encodeCategoricalColumns T1)) "name").cells) ∧
    ∀ p ∈ RES1.clusters, (Prod.snd p).Sublist
      ((getCol (scaleNumericColumns sq0 (encodeCategoricalColumns T1)) "name").cells) :=
  clustering_C1 sq0 M0 0 T1 3 RES1 M0_valid (by decide) (by decide) (by decide)

theorem sortedUnique_length_le {labels : List ℕ} {k : ℕ} (h : ∀ l ∈ labels, l < k) :
    (sortedUnique labels).length ≤ k := by
  rw [← List.toFinset_card_of_nodup (sortedUnique_nodup labels)]
  have hsub : (sortedUnique labels).toFinset ⊆ Finset.range k := by
    intro x hx
    rw [List.mem_toFinset, mem_sortedUnique] at hx
    rw [Finset.mem_range]
    exact h x hx
  simpa using Finset.card_le_card hsub

theorem sortedUnique_length_eq {labels : List ℕ} {k : ℕ} (h : ∀ l ∈ labels, l < k)
    (hall : ∀ i, i < k → i ∈ labels) : (sortedUnique labels).length = k := by
  rw [← List.toFinset_card_of_nodup (sortedUnique_nodup labels)]
  have heq : (sortedUnique labels).toFinset = Finset.range k := by
    apply Finset.Subset.antisymm
    · intro x hx
      rw [List.mem_toFinset, mem_sortedUnique] at hx
      rw [Finset.mem_range]
      exact h x hx
    · intro x hx
      rw [Finset.mem_range] at hx
      rw [List.mem_toFinset, mem_sortedUnique]
      exact hall x hx
  rw [heq, Finset.card_range]

/-- C2 counterexample: with two identical feature rows and `k = 2`, a valid
clustering behaviour (everything in cluster 0, as the spec itself allows
for tied data) makes the pipeline's summary omit the empty cluster, so it
has one entry, not `k`. -/
theorem clustering_C2_counterexample :
    M0.Valid ∧ WF T2 ∧
    run_clustering_pipeline sq0 M0 0 T2 2 = .ok RES2 ∧
    RES2.clusters.length ≠ 2 :=
  ⟨M0_valid, by decide, by decide, by decide⟩

/-- C2 amended: the clusters mapping has one entry per label value that
actually occurs in the assignment, keyed `"Cluster {i}"` in ascending label
order; empty clusters are omitted, so there are at most `k` entries, with
exactly `k` precisely when every label in `[0, k-1]` occurs. -/
theorem clustering_C2_amended (sq : ℚ → ℚ) (M : KMeansModel) (e : ℕ) (t : Table) (k : ℕ)
    (r : ClusterResult) (hM : M.Valid) (hk : 1 ≤ k)
    (hrun : run_clustering_pipeline sq M e t k = .ok r) :
    (r.clusters.map Prod.fst =
      (sortedUnique (M.predict 42 10 k
        (featureMatrix (scaleNumericColumns sq (encodeCategoricalColumns t))))).map clusterKey) ∧
    List.Sorted (fun a b => a ≤ b)
      (sortedUnique (M.predict 42 10 k
        (featureMatrix (scaleNumericColumns sq (encodeCategoricalColumns t))))) ∧
    r.clusters.length ≤ k ∧
    ((∀ i, i < k → i ∈ M.predict 42 10 k
        (featureMatrix (scaleNumericColumns sq (encodeCategoricalColumns t)))) →
      r.clusters.length = k) := by
  obtain ⟨h1, h2, h3⟩ := run_ok_guards hrun
  rw [run_eq_ok sq M e t k h1 h2 h3] at hrun
  injection hrun with hr
  subst hr
  set t₂ := scaleNumericColumns sq (encodeCategoricalColumns t) with ht₂
  set ids := (getCol t₂ "name").cells with hids
  set labels := M.predict 42 10 k (featureMatrix t₂) with hlabels
  have hvalid : ∀ l ∈ labels, l < k := (hM 42 10 k (featureMatrix t₂) hk).2
  refine ⟨?_, ?_, ?_, ?_⟩
  · show (clustersSummary ids labels).map Prod.fst = (sortedUnique labels).map clusterKey
    rw [clustersSummary, List.map_map]
    exact List.map_congr_left (fun c _ => rfl)
  · exact List.sorted_insertionSort _ _
  · show (clustersSummary ids labels).length ≤ k
    rw [clustersSummary, List.length_map]
    exact sortedUnique_length_le hvalid
  · intro hall
    show (clustersSummary ids labels).length = k
    rw [clustersSummary, List.length_map]
    exact sortedUnique_length_eq hvalid hall

/-- Witness for the amended C2 at a table of four rows with a round-robin
labelling: both labels occur and the summary has exactly `k = 2` entries. -/
theorem clustering_C2_witness :
    (RES3.clusters.map Prod.fst =
      (sortedUnique (M2.predict 42 10 2
        (featureMatrix (scaleNumericColumns sq0 (encodeCategoricalColumns T3))))).map clusterKey) ∧
    List.Sorted (fun a b => a ≤ b)
      (sortedUnique (M2.predict 42 10 2
        (featureMatrix (scaleNumericColumns sq0 (encodeCategoricalColumns T3))))) ∧
    RES3.clusters.length ≤ 2 ∧
    ((∀ i, i < 2 → i ∈ M2.predict 42 10 2
        (featureMatrix (scaleNumericColumns sq0 (encodeCategoricalColumns T3)))) →
      RES3.clusters.length = 2) :=
  clustering_C2_amended sq0 M2 0 T3 2 RES3 M2_valid (by decide) (by decide)

/-- C3: the pipeline is deterministic.  The ambient entropy (what sklearn
would consult if `random_state` were `None`) does not influence the result,
because the code pins `random_state=42`; hence two runs on the same parsed
input and `k` agree exactly. -/
theorem clustering_C3 (sq : ℚ → ℚ) (M : KMeansModel) (t : Table) (k e₁ e₂ : ℕ) :
    run_clustering_pipeline sq M e₁ t k = run_clustering_pipeline sq M e₂ t k := rfl

/-- C4: a table without a column named exactly "name" is rejected with the
schema error, regardless of the other columns. -/
theorem clustering_C4 (sq : ℚ → ℚ) (M : KMeansModel) (e : ℕ) (t : Table) (k : ℕ)
    (h : "name" ∉ t.map Prod.fst) :
    run_clustering_pipeline sq M e t k =
      .error (.schemaError "Dataset must contain a 'name' column for person identification.") :=
  run_missing_name sq M e t k h

/-- Witness for C4 at a one-column table lacking "name". -/
theorem clustering_C4_witness :
    run_clustering_pipeline sq0 M0 0 [("age", ColVals.nums [1])] 3 =
      .error (.schemaError "Dataset must contain a 'name' column for person identification.") :=
  clustering_C4 sq0 M0 0 [("age", ColVals.nums [1])] 3 (by decide)

def T6 : Table := [("name", .strs ["a"]), ("city", .strs ["x"])]

/-- C5 counterexample: a table whose only numeric column is "name" itself.
The spec's numeric-column set with the identifier removed is empty, yet the
pipeline does not fail with a schema error — it clusters on the
standardized "name" column (the code never removes "name" from the numeric
set). -/
theorem clustering_C5_counterexample :
    specNumericColsExclId T5 = [] ∧ M0.Valid ∧ WF T5 ∧
    run_clustering_pipeline sq0 M0 0 T5 3 = .ok RES5 :=
  ⟨by decide, M0_valid, by decide, by decide⟩

/-- C5 amended: the schema error is raised exactly when the numeric-dtype
column set after encoding — which still includes the identifier column if
its values are numeric — is empty (given "name" is present, which is
checked first). -/
theorem clustering_C5_amended (sq : ℚ → ℚ) (M : KMeansModel) (e : ℕ) (t : Table) (k : ℕ)
    (h1 : "name" ∈ t.map Prod.fst)
    (h2 : numericCols (encodeCategoricalColumns t) = []) :
    run_clustering_pipeline sq M e t k =
      .error (.schemaError "Dataset must contain at least one numeric column for clustering.") :=
  run_no_numeric sq M e t k h1 h2

/-- Witness for the amended C5 at a table with only string columns. -/
theorem clustering_C5_witness :
    run_clustering_pipeline sq0 M0 0 T6 3 =
      .error (.schemaError "Dataset must contain at least one numeric column for clustering.") :=
  clustering_C5_amended sq0 M0 0 T6 3 (by decide) (by decide)

/-- C6: when the row count is strictly smaller than the requested `k` (and
the earlier schema checks pass), the pipeline fails with the clustering
error sklearn raises (`n_samples should be >= n_clusters`). -/
theorem clustering_C6 (sq : ℚ → ℚ) (M : KMeansModel) (e : ℕ) (t : Table) (k : ℕ)
    (h1 : "name" ∈ t.map Prod.fst)
    (h2 : numericCols (encodeCategoricalColumns t) ≠ [])
    (h3 : nRows t < k) :
    ∃ msg, run_clustering_pipeline sq M e t k = .error (.clusteringError msg) :=
  ⟨_, run_k_too_big sq M e t k h1 h2 h3⟩

/-- Witness for C6: three rows, `k = 5`. -/
theorem clustering_C6_witness :
    nRows T1 < 5 ∧
    ∃ msg, run_clustering_pipeline sq0 M0 0 T1 5 = .error (.clusteringError msg) :=
  ⟨by decide, clustering_C6 sq0 M0 0 T1 5 (by decide) (by decide) (by decide)⟩

/-- C7: the downloadable export is the indent-2 pretty-printing of a JSON
object with exactly the two keys `number_of_clusters` and `clusters` — no
other field (in particular no per-row detail). -/
theorem clustering_C7 (r : ClusterResult) :
    serialize_clusters_to_json r = (downloadPayload r).dump 2 0 ∧
    ∃ entries : List (String × JVal),
      downloadPayload r = JVal.jobj entries ∧
      entries.map Prod.fst = ["number_of_clusters", "clusters"] :=
  ⟨rfl,
   [("number_of_clusters", .jint r.number_of_clusters), ("clusters", clustersToJ r.clusters)],
   rfl, rfl⟩

theorem sum_sq_zero {μ : ℚ} : ∀ {l : List ℚ},
    ((l.map (fun x => (x - μ) ^ 2)).sum = 0) → ∀ x ∈ l, x = μ := by
  intro l
  induction l with
  | nil =>
    intro _ x hx
    exact absurd hx (List.not_mem_nil x)
  | cons a l ih =>
    intro h x hx
    rw [List.map_cons, List.sum_cons] at h
    have h1 : (0:ℚ) ≤ (a - μ) ^ 2 := sq_nonneg _
    have h2 : (0:ℚ) ≤ (l.map (fun x => (x - μ) ^ 2)).sum := by
      apply List.sum_nonneg
      intro y hy
      rw [List.mem_map] at hy
      obtain ⟨z, _, rfl⟩ := hy
      exact sq_nonneg _
    have ha : (a - μ) ^ 2 = 0 := by linarith
    have hl : (l.map (fun x => (x - μ) ^ 2)).sum = 0 := by linarith
    rcases List.mem_cons.mp hx with rfl | hx'
    · have hz := (pow_eq_zero_iff (two_ne_zero)).mp ha
      exact sub_eq_zero.mp hz
    · exact ih hl x hx'

/-- C8: a column with population variance exactly 0 (all values equal)
standardizes to exactly 0 in every row, whatever value the square root
model takes; no division blows up because a zero scale is replaced by 1. -/
theorem clustering_C8 (sq : ℚ → ℚ) (vs : List ℚ) (h : popVariance vs = 0) :
    scaleColumn sq vs = vs.map (fun _ => (0:ℚ)) := by
  cases vs with
  | nil => rfl
  | cons a l =>
    have hn : (((a :: l).length : ℚ)) ≠ 0 := by
      rw [Nat.cast_ne_zero]
      simp
    rw [popVariance, div_eq_zero_iff] at h
    have hsum : (((a :: l).map (fun x => (x - mean (a :: l)) ^ 2)).sum) = 0 := by
      rcases h with h | h
      · exact h
      · exact absurd h hn
    have hall := sum_sq_zero hsum
    rw [scaleColumn]
    apply List.map_congr_left
    intro x hx
    rw [hall x hx, sub_self, zero_div]

/-- Witness for C8 on the constant column `[3, 3, 3]`, with a square-root
model that is nonzero at 0 (so the division genuinely happens). -/
theorem clustering_C8_witness :
    popVariance [3, 3, 3] = 0 ∧
    scaleColumn (fun q => q + 1) [3, 3, 3] = ([3, 3, 3] : List ℚ).map (fun _ => (0:ℚ)) :=
  ⟨by decide, clustering_C8 (fun q => q + 1) [3, 3, 3] (by decide)⟩

/-- C9 counterexample: at a concrete valid run, the success dictionary has
keys `number_of_clusters`, `clusters`, `raw_clusters` — there is no
`all_rows` key. -/
theorem clustering_C9_counterexample :
    run_clustering_pipeline sq0 M0 0 T1 3 = .ok RES1 ∧
    "all_rows" ∉ (resultToPy RES1).map Prod.fst ∧
    (resultToPy RES1).map Prod.fst = ["number_of_clusters", "clusters", "raw_clusters"] :=
  ⟨by decide, by decide, by decide⟩

theorem rowRecord_map_fst (t : Table) (i : ℕ) :
    (rowRecord t i).map Prod.fst = t.map Prod.fst := by
  rw [rowRecord, List.map_map]
  exact List.map_congr_left (fun c _ => rfl)

theorem rawRecords_length (t : Table) (labels : List ℕ) :
    (rawRecords t labels).length = nRows t := by
  simp [rawRecords]

theorem rawRecords_getD (t : Table) (labels : List ℕ) (i : ℕ) (hi : i < nRows t) :
    (rawRecords t labels).getD i [] =
      rowRecord t i ++ [("Cluster", CVal.q ((labels.getD i 0 : ℕ) : ℚ))] := by
  have hlen : i < (rawRecords t labels).length := by
    rw [rawRecords_length]
    exact hi
  rw [List.getD_eq_getElem _ _ hlen]
  simp [rawRecords]

/-- C9 amended: the full per-row detail lives under the key
`raw_clusters` (not `all_rows`): one record per original row, in row
order, holding the transformed (post-encoding, post-scaling) column values
plus the assigned cluster label under the trailing key "Cluster". -/
theorem clustering_C9_amended (sq : ℚ → ℚ) (M : KMeansModel) (e : ℕ) (t : Table) (k : ℕ)
    (r : ClusterResult)
    (hrun : run_clustering_pipeline sq M e t k = .ok r) :
    ((resultToPy r).map Prod.fst = ["number_of_clusters", "clusters", "raw_clusters"]) ∧
    r.raw_clusters.length = nRows t ∧
    (∀ i, i < nRows t →
      (r.raw_clusters.getD i []).map Prod.fst = t.map Prod.fst ++ ["Cluster"]) ∧
    (∀ i, i < nRows t →
      r.raw_clusters.getD i [] =
        rowRecord (scaleNumericColumns sq (encodeCategoricalColumns t)) i ++
          [("Cluster", CVal.q (((M.predict 42 10 k (featureMatrix
            (scaleNumericColumns sq (encodeCategoricalColumns t)))).getD i 0 : ℕ) : ℚ))]) := by
  obtain ⟨h1, h2, h3⟩ := run_ok_guards hrun
  rw [run_eq_ok sq M e t k h1 h2 h3] at hrun
  injection hrun with hr
  subst hr
  set t₂ := scaleNumericColumns sq (encodeCategoricalColumns t) with ht₂
  set labels := M.predict 42 10 k (featureMatrix t₂) with hlabels
  have hrows : nRows t₂ = nRows t := by
    rw [ht₂, nRows_scale, nRows_encode]
  refine ⟨rfl, ?_, ?_, ?_⟩
  · show (rawRecords t₂ labels).length = nRows t
    rw [rawRecords_length, hrows]
  · intro i hi
    show ((rawRecords t₂ labels).getD i []).map Prod.fst = t.map Prod.fst ++ ["Cluster"]
    rw [rawRecords_getD t₂ labels i (by rw [hrows]; exact hi), List.map_append,
      rowRecord_map_fst, ht₂, map_fst_scale, map_fst_encode]
    rfl
  · intro i hi
    show (rawRecords t₂ labels).getD i [] =
      rowRecord t₂ i ++ [("Cluster", CVal.q ((labels.getD i 0 : ℕ) : ℚ))]
    exact rawRecords_getD t₂ labels i (by rw [hrows]; exact hi)

/-- Witness for the amended C9 at a concrete three-row table. -/
theorem clustering_C9_witness :
    ((resultToPy RES1).map Prod.fst = ["number_of_clusters", "clusters", "raw_clusters"]) ∧
    RES1.raw_clusters.length = nRows T1 ∧
    (∀ i, i < nRows T1 →
      (RES1.raw_clusters.getD i []).map Prod.fst = T1.map Prod.fst ++ ["Cluster"]) ∧
    (∀ i, i < nRows T1 →
      RES1.raw_clusters.getD i [] =
        rowRecord (scaleNumericColumns sq0 (encodeCategoricalColumns T1)) i ++
          [("Cluster", CVal.q (((M0.predict 42 10 3 (featureMatrix
            (scaleNumericColumns sq0 (encodeCategoricalColumns T1)))).getD i 0 : ℕ) : ℚ))]) :=
  clustering_C9_amended sq0 M0 0 T1 3 RES1 (by decide)

/-- C10: a table whose "name" column is numeric is not rejected — the
"name" column is itself part of the numeric feature set (so it is
standardized and clustered on), and the identifier lists of the summary
then hold the standardized numeric values instead of the raw names. -/
theorem clustering_C10 (sq : ℚ → ℚ) (M : KMeansModel) (e : ℕ) (t : Table) (k : ℕ)
    (ys : List ℚ) (hkn : k ≤ nRows t)
    (hname : t.find? (fun c => c.1 = "name") = some ("name", ColVals.nums ys)) :
    ∃ r, run_clustering_pipeline sq M e t k = .ok r ∧
      "name" ∈ numericCols (encodeCategoricalColumns t) ∧
      r.clusters = clustersSummary ((scaleColumn sq ys).map CVal.q)
        (M.predict 42 10 k (featureMatrix (scaleNumericColumns sq (encodeCategoricalColumns t)))) := by
  have h1 : "name" ∈ t.map Prod.fst := by
    rw [List.mem_map]
    exact ⟨("name", ColVals.nums ys), List.mem_of_find?_eq_some hname, rfl⟩
  have hfind_enc : (encodeCategoricalColumns t).find? (fun c => c.1 = "name")
      = some ("name", ColVals.nums ys) := by
    rw [encodeCategoricalColumns, find?_mapCols, hname]
    simp [candidateColumns]
  have h2mem : "name" ∈ numericCols (encodeCategoricalColumns t) := by
    rw [numericCols, List.mem_map]
    exact ⟨("name", ColVals.nums ys),
      List.mem_filter.mpr ⟨List.mem_of_find?_eq_some hfind_enc, rfl⟩, rfl⟩
  have h2 : numericCols (encodeCategoricalColumns t) ≠ [] := List.ne_nil_of_mem h2mem
  have h3 : ¬ nRows t < k := not_lt.mpr hkn
  have hgc : getCol (scaleNumericColumns sq (encodeCategoricalColumns t)) "name"
      = ColVals.nums (scaleColumn sq ys) := by
    rw [scaleNumericColumns, getCol_mapCols, hfind_enc]
  refine ⟨_, run_eq_ok sq M e t k h1 h2 h3, h2mem, ?_⟩
  show clustersSummary
      ((getCol (scaleNumericColumns sq (encodeCategoricalColumns t)) "name").cells) _ = _
  rw [hgc]
  rfl

/-- Witness for C10: a table whose sole column is a numeric "name". -/
theorem clustering_C10_witness :
    (T5.find? (fun c => c.1 = "name") = some ("name", ColVals.nums [1, 2, 3])) ∧
    ∃ r, run_clustering_pipeline sq0 M2 0 T5 2 = .ok r ∧
      "name" ∈ numericCols (encodeCategoricalColumns T5) ∧
      r.clusters = clustersSummary ((scaleColumn sq0 [1, 2, 3]).map CVal.q)
        (M2.predict 42 10 2 (featureMatrix (scaleNumericColumns sq0 (encodeCategoricalColumns T5)))) :=
  ⟨by decide, clustering_C10 sq0 M2 0 T5 2 [1, 2, 3] (by decide) (by decide)⟩

end Avocado
